import Mathlib

/-!
# kobra: mesh memory cache and raster layer

A shallow embedding of `include/layers/mesh_memory.hpp` and
`include/layers/raster.hpp`.

* Pointers (`const Renderable *`, `Vertex *`, `vk::raii::Device *`, ...) are
  natural-number addresses, `0` being `nullptr`.
* `std::map <Ref, Cache>` is a list of key/value pairs with strictly ascending
  keys; `std::map::at` and `std::vector::at` return `Except Exception _`,
  the error being `std::out_of_range`.
* A `const` member function is a pure function of the object.
-/

namespace kobra

namespace layers

/-! ## Exceptions and the standard containers -/

/-- The exceptions thrown by the container accessors used in the layer. -/
inductive Exception where
  | out_of_range
deriving DecidableEq, Repr

/-- Bounds-checked element access, `std::vector::at`. -/
def vector_at {α : Type} (v : List α) (n : Nat) : Except Exception α :=
  if h : n < v.length then .ok (v.get ⟨n, h⟩) else .error .out_of_range

/-- Address of a renderable: `using Ref = const Renderable *`. -/
abbrev Ref := Nat

/-- Linear search of a key in the entries of a map. -/
def entries_find {V : Type} : List (Ref × V) → Ref → Option V
  | [], _ => none
  | (k, v) :: rest, key => if key = k then some v else entries_find rest key

/-- The keys of the entries are strictly ascending (so they are unique). -/
def keys_ascending {V : Type} (l : List (Ref × V)) : Prop :=
  List.Pairwise (fun a b => a.1 < b.1) l

/-- Ordered associative container with unique keys, `std::map <Ref, V>`:
the entries in key order. -/
structure StdMap (V : Type) where
  entries : List (Ref × V)
  ordered : keys_ascending entries

namespace StdMap

/-- The empty map, what the default constructor of `std::map` builds. -/
def empty {V : Type} : StdMap V := ⟨[], List.Pairwise.nil⟩

/-- The keys of the map, in ascending order. -/
def keys {V : Type} (m : StdMap V) : List Ref := m.entries.map Prod.fst

/-- Number of entries under a key (0 or 1), `std::map::count`. -/
def count {V : Type} (m : StdMap V) (key : Ref) : Nat :=
  match entries_find m.entries key with
  | some _ => 1
  | none => 0

/-- Checked access `std::map::at`: throws `std::out_of_range` on a missing key. -/
def map_at {V : Type} (m : StdMap V) (key : Ref) : Except Exception V :=
  match entries_find m.entries key with
  | some v => .ok v
  | none => .error .out_of_range

/-- Member `std::map::insert_or_assign`: afterwards the map holds the entries
with a smaller key, then the pair, then the entries with a larger key. -/
def insert_or_assign {V : Type} (m : StdMap V) (key : Ref) (v : V) : StdMap V where
  entries :=
    m.entries.filter (fun p => decide (p.1 < key)) ++
      (key, v) :: m.entries.filter (fun p => decide (key < p.1))
  ordered := by
    have hl := m.ordered
    unfold keys_ascending at hl ⊢
    rw [List.pairwise_append]
    refine ⟨hl.filter _, List.pairwise_cons.mpr ⟨?_, hl.filter _⟩, ?_⟩
    · intro b hb
      exact of_decide_eq_true (List.mem_filter.mp hb).2
    · intro a ha b hb
      have h1 : a.1 < key := of_decide_eq_true (List.mem_filter.mp ha).2
      rcases List.mem_cons.mp hb with h | h
      · rw [h]; exact h1
      · exact lt_trans h1 (of_decide_eq_true (List.mem_filter.mp h).2)

/-- Member `std::map::insert`: adds the pair unless the key is present, in
which case the map is left as it is. -/
def insert {V : Type} (m : StdMap V) (key : Ref) (v : V) : StdMap V :=
  if m.count key > 0 then m else m.insert_or_assign key v

/-- Member `std::map::erase`: removes the entry of the key, if any. -/
def erase {V : Type} (m : StdMap V) (key : Ref) : StdMap V where
  entries := m.entries.filter (fun p => decide (p.1 ≠ key))
  ordered := List.Pairwise.filter _ m.ordered

end StdMap

/-! ## `MeshMemory` -/

/-- Information for a single submesh: the two CUDA device pointers. -/
structure Cachelet where
  m_cuda_vertices : Nat := 0
  m_cuda_triangles : Nat := 0
deriving DecidableEq, Repr

/-- Full information for a renderable and its mesh. -/
structure Cache where
  m_cachelets : List Cachelet := []
deriving DecidableEq, Repr

/-- The fields of `Context` (declared in `backend.hpp`) that the layer reads. -/
structure Context where
  phdev : Nat
  device : Nat
deriving DecidableEq, Repr

/-- Memory relating to renderables: the Vulkan handles and the set of all
cache items. -/
structure MeshMemory where
  m_phdev : Nat := 0
  m_device : Nat := 0
  m_cache : StdMap Cache := StdMap.empty

namespace MeshMemory

/-- Default constructor, `MeshMemory() = default`. -/
def default_ctor : MeshMemory := {}

/-- Constructor `MeshMemory(const Context &)`: stores the two device handles. -/
def from_context (context : Context) : MeshMemory :=
  { m_phdev := context.phdev, m_device := context.device }

/-- Overload `get(Ref)`: `return m_cache.at(renderable);`. -/
def get (self : MeshMemory) (renderable : Ref) : Except Exception Cache :=
  self.m_cache.map_at renderable

/-- Overload `get(Ref, size_t)`:
`return m_cache.at(renderable).m_cachelets.at(submesh);`. -/
def get_submesh (self : MeshMemory) (renderable : Ref) (submesh : Nat) :
    Except Exception Cachelet :=
  match self.m_cache.map_at renderable with
  | .ok cache => vector_at cache.m_cachelets submesh
  | .error e => .error e

end MeshMemory

/-! ## Caching a renderable

`cache_cuda` and `fill_cachelet` are declared in the header and defined in a
translation unit that is not part of the sources, and so are the types of
`renderable.hpp`. -/

/-- Modelled from the spec: `Vertex` (declared in `vertex.hpp`, absent) is an
uninterpreted payload word; only the number of vertices matters here. -/
abbrev Vertex := Nat

/-- Modelled from the spec: `Submesh` (declared in `renderable.hpp`, absent),
"one contiguous piece of geometry: vertex list, triangle/index list". -/
structure Submesh where
  vertices : List Vertex
  triangles : List (Nat × Nat × Nat)
deriving DecidableEq, Repr

/-- Modelled from the spec: `Renderable` (declared in `renderable.hpp`,
absent), the pointee of a `Ref`: an "ordered set of submeshes". Its address is
its identity; the pointee may change while the address stays. -/
structure Renderable where
  submeshes : List Submesh
deriving DecidableEq, Repr

/-- Modelled from the spec: the device memory of the compute backend (the CUDA
runtime, external): the next unused device handle and the arrays allocated so
far, each under its handle. -/
structure DeviceMemory where
  next : Nat := 1
  vertex_arrays : List (Nat × List Vertex) := []
  triangle_arrays : List (Nat × List (Nat × Nat × Nat)) := []
deriving DecidableEq, Repr

/-- Modelled from the spec: `fill_cachelet(Cachelet &, const Submesh &)`, whose
body is absent: "(a) allocating device-resident, compute-importable buffers
sized to the submesh's vertex and triangle counts, and (b) copying vertex and
triangle data from the submesh's representation into those buffers". -/
def fill_cachelet (_cachelet : Cachelet) (submesh : Submesh) (dev : DeviceMemory) :
    Cachelet × DeviceMemory :=
  ({ m_cuda_vertices := dev.next, m_cuda_triangles := dev.next + 1 },
   { next := dev.next + 2,
     vertex_arrays := (dev.next, submesh.vertices) :: dev.vertex_arrays,
     triangle_arrays := (dev.next + 1, submesh.triangles) :: dev.triangle_arrays })

/-- Modelled from the spec: the loop of `cache_cuda` over the submeshes, which
"allocates one Cachelet per submesh and populates each"; cachelet `i`
corresponds to submesh `i`. -/
def fill_cachelets : List Submesh → DeviceMemory → List Cachelet × DeviceMemory
  | [], dev => ([], dev)
  | submesh :: rest, dev =>
      let filled := fill_cachelet {} submesh dev
      let others := fill_cachelets rest filled.2
      (filled.1 :: others.1, others.2)

/-- Modelled from the spec: `cache_cuda(Ref)`, whose body is absent: "if a
Cache already exists for that identity, it is a no-op; otherwise it allocates
one Cachelet per submesh and populates each". `pointee` is the renderable read
through the pointer at the time of the call. -/
def MeshMemory.cache_cuda (self : MeshMemory) (dev : DeviceMemory)
    (renderable : Ref) (pointee : Renderable) : MeshMemory × DeviceMemory :=
  if self.m_cache.count renderable > 0 then (self, dev)
  else
    let filled := fill_cachelets pointee.submeshes dev
    ({ self with m_cache := self.m_cache.insert renderable { m_cachelets := filled.1 } },
     filled.2)

/-! ## `Raster` -/

/-- Skybox data of the raster layer, with its default member initializers
(`nullptr` handles are `0`, the default `std::string` is empty). -/
structure Skybox where
  enabled : Bool := false
  initialized : Bool := false
  vertex_buffer : Nat := 0
  index_buffer : Nat := 0
  path : String := ""
  pipeline : Nat := 0
  ppl : Nat := 0
  dsl : Nat := 0
  dset : Nat := 0
deriving DecidableEq, Repr

/-- The data members of `Raster` (the timer apart, whose type is declared in
`timer.hpp`). `_cached_rasterizers` is the `std::set` in ascending order. -/
structure Raster where
  _ctx : Context
  _render_pass : Nat := 0
  _ppl : Nat := 0
  _p_albedo : Nat := 0
  _p_normal : Nat := 0
  _p_phong : Nat := 0
  _b_lights : Nat := 0
  _skybox : Skybox := {}
  _dsl : Nat := 0
  _cached_rasterizers : List Ref := []
  _area_light : Nat
deriving DecidableEq, Repr

/-- Default constructor, `Raster() = default`: every member with a default
member initializer takes it; `_ctx` and `_area_light` have none, and their
values are arguments here. -/
def Raster.default_ctor (ctx : Context) (area_light : Nat) : Raster :=
  { _ctx := ctx, _area_light := area_light }

/-- Modelled from the spec: `RenderArea` (declared in `backend.hpp`, absent),
built in the header from two pairs of numbers: an offset and an extent. -/
structure RenderArea where
  min : Int × Int
  max : Int × Int
deriving DecidableEq, Repr

/-- The arguments a call of `Raster::render` hands to the function body. -/
structure RenderArgs where
  cmd : Nat
  framebuffer : Nat
  ecs : Nat
  area : RenderArea
deriving DecidableEq, Repr

/-- Argument passing of `Raster::render`: the fourth parameter is declared
`const RenderArea & = RenderArea {{-1, -1}, {-1, -1}}`, so a call that leaves
it out (`none`) passes that value. -/
def Raster.render_args (cmd framebuffer ecs : Nat) (area : Option RenderArea) :
    RenderArgs :=
  { cmd := cmd, framebuffer := framebuffer, ecs := ecs,
    area := match area with
      | some a => a
      | none => RenderArea.mk (-1, -1) (-1, -1) }

/-! ## Lemmas on the map model -/

theorem entries_find_filter {V : Type} (q : Ref → Bool) (l : List (Ref × V)) (k : Ref) :
    entries_find (l.filter (fun p => q p.1)) k
      = if q k = true then entries_find l k else none := by
  induction l with
  | nil => simp [entries_find]
  | cons hd tl ih =>
    obtain ⟨a, w⟩ := hd
    by_cases hq : q a = true
    · rw [List.filter_cons_of_pos (by simpa using hq)]
      unfold entries_find
      by_cases hk : k = a
      · subst hk; simp [hq]
      · simp only [hk, if_false]; exact ih
    · rw [List.filter_cons_of_neg (by simpa using hq)]
      rw [ih]
      by_cases hk : k = a
      · subst hk; simp [hq]
      · simp [entries_find, hk]

theorem entries_find_append {V : Type} (a b : List (Ref × V)) (k : Ref) :
    entries_find (a ++ b) k
      = match entries_find a k with
        | some v => some v
        | none => entries_find b k := by
  induction a with
  | nil => simp [entries_find]
  | cons hd tl ih =>
    obtain ⟨x, w⟩ := hd
    by_cases hk : k = x
    · simp [entries_find, hk]
    · simp only [List.cons_append, entries_find, hk, if_false]; exact ih

theorem entries_find_mem {V : Type} (l : List (Ref × V)) (k : Ref) (v : V)
    (h : entries_find l k = some v) : (k, v) ∈ l := by
  induction l with
  | nil => simp [entries_find] at h
  | cons hd tl ih =>
    obtain ⟨x, w⟩ := hd
    unfold entries_find at h
    split_ifs at h with hk
    · cases h; rw [hk]; exact List.mem_cons_self _ _
    · exact List.mem_cons_of_mem _ (ih h)

theorem entries_find_of_mem {V : Type} (l : List (Ref × V)) (k : Ref) (v : V)
    (hl : keys_ascending l) (h : (k, v) ∈ l) : entries_find l k = some v := by
  induction l with
  | nil => simp at h
  | cons hd tl ih =>
    obtain ⟨x, w⟩ := hd
    have hl2 := List.pairwise_cons.mp hl
    unfold entries_find
    rcases List.mem_cons.mp h with h | h
    · cases h; simp
    · have hlt : x < k := hl2.1 (k, v) h
      have hne : k ≠ x := Nat.ne_of_gt hlt
      simp only [hne, if_false]
      exact ih hl2.2 h

theorem entries_find_none_iff {V : Type} (l : List (Ref × V)) (k : Ref) :
    entries_find l k = none ↔ k ∉ l.map Prod.fst := by
  induction l with
  | nil => simp [entries_find]
  | cons hd tl ih =>
    obtain ⟨x, w⟩ := hd
    by_cases hk : k = x
    · simp [entries_find, hk]
    · simp [entries_find, hk, ih]

theorem entries_find_assign_ne {V : Type} (m : StdMap V) (key k : Ref) (v : V)
    (hne : k ≠ key) :
    entries_find (m.insert_or_assign key v).entries k = entries_find m.entries k := by
  show entries_find (m.entries.filter (fun p => decide (p.1 < key)) ++
      (key, v) :: m.entries.filter (fun p => decide (key < p.1))) k = _
  rw [entries_find_append, entries_find_filter (fun x => decide (x < key))]
  by_cases h1 : k < key
  · simp only [h1, decide_True, if_true]
    cases hf : entries_find m.entries k with
    | some c => rfl
    | none =>
      have h2 : ¬ key < k := Nat.lt_asymm h1
      simp [entries_find, hne, entries_find_filter (fun x => decide (key < x)), h2]
  · have h2 : key < k := lt_of_le_of_ne (not_lt.mp h1) (Ne.symm hne)
    simp [h1, entries_find, hne, entries_find_filter (fun x => decide (key < x)), h2]

theorem entries_find_assign_self {V : Type} (m : StdMap V) (key : Ref) (v : V) :
    entries_find (m.insert_or_assign key v).entries key = some v := by
  show entries_find (m.entries.filter (fun p => decide (p.1 < key)) ++
      (key, v) :: m.entries.filter (fun p => decide (key < p.1))) key = _
  rw [entries_find_append, entries_find_filter (fun x => decide (x < key))]
  simp [entries_find]

theorem entries_find_insert_ne {V : Type} (m : StdMap V) (key k : Ref) (v : V)
    (hne : k ≠ key) :
    entries_find (m.insert key v).entries k = entries_find m.entries k := by
  unfold StdMap.insert
  split_ifs
  · rfl
  · exact entries_find_assign_ne m key k v hne

theorem entries_find_insert_absent {V : Type} (m : StdMap V) (key : Ref) (v : V)
    (h : entries_find m.entries key = none) :
    entries_find (m.insert key v).entries key = some v := by
  unfold StdMap.insert
  have hc : ¬ m.count key > 0 := by simp [StdMap.count, h]
  rw [if_neg hc]
  exact entries_find_assign_self m key v

theorem entries_find_erase_ne {V : Type} (m : StdMap V) (key k : Ref)
    (hne : k ≠ key) :
    entries_find (m.erase key).entries k = entries_find m.entries k := by
  show entries_find (m.entries.filter (fun p => decide (p.1 ≠ key))) k = _
  rw [entries_find_filter (fun x => decide (x ≠ key))]
  simp [hne]

theorem count_pos_iff {V : Type} (m : StdMap V) (key : Ref) :
    m.count key > 0 ↔ ∃ v, entries_find m.entries key = some v := by
  unfold StdMap.count
  cases entries_find m.entries key <;> simp

theorem vector_at_ok_iff {α : Type} (v : List α) (n : Nat) (x : α) :
    vector_at v n = .ok x ↔ v[n]? = some x := by
  unfold vector_at
  by_cases h : n < v.length
  · simp [h, List.getElem?_eq_getElem]
  · simp [h, List.getElem?_eq_none (not_lt.mp h)]

theorem vector_at_error_iff {α : Type} (v : List α) (n : Nat) :
    vector_at v n = .error .out_of_range ↔ v.length ≤ n := by
  unfold vector_at
  by_cases h : n < v.length
  · simp [h]
  · simp [h, not_lt.mp h]

theorem map_at_ok_iff {V : Type} (m : StdMap V) (key : Ref) (v : V) :
    m.map_at key = .ok v ↔ entries_find m.entries key = some v := by
  unfold StdMap.map_at
  cases entries_find m.entries key <;> simp

theorem map_at_error_iff {V : Type} (m : StdMap V) (key : Ref) :
    m.map_at key = .error .out_of_range ↔ entries_find m.entries key = none := by
  unfold StdMap.map_at
  cases entries_find m.entries key <;> simp

theorem map_at_ok_iff_mem {V : Type} (m : StdMap V) (key : Ref) (v : V) :
    m.map_at key = .ok v ↔ (key, v) ∈ m.entries := by
  rw [map_at_ok_iff]
  exact ⟨entries_find_mem _ _ _, entries_find_of_mem _ _ _ m.ordered⟩

theorem map_at_error_iff_not_key {V : Type} (m : StdMap V) (key : Ref) :
    m.map_at key = .error .out_of_range ↔ key ∉ m.keys := by
  rw [map_at_error_iff]
  exact entries_find_none_iff _ _

theorem map_at_cases {V : Type} (m : StdMap V) (key : Ref) :
    (∃ v, m.map_at key = .ok v ∧ (key, v) ∈ m.entries ∧ key ∈ m.keys) ∨
    (m.map_at key = .error .out_of_range ∧ key ∉ m.keys) := by
  cases h : entries_find m.entries key with
  | none =>
    exact Or.inr ⟨(map_at_error_iff m key).mpr h, (entries_find_none_iff _ _).mp h⟩
  | some v =>
    have hm := entries_find_mem _ _ _ h
    exact Or.inl ⟨v, (map_at_ok_iff m key v).mpr h, hm,
      List.mem_map.mpr ⟨(key, v), hm, rfl⟩⟩

theorem get_submesh_of_get_ok (mm : MeshMemory) (R : Ref) (i : Nat) (c : Cache)
    (h : mm.get R = .ok c) : mm.get_submesh R i = vector_at c.m_cachelets i := by
  unfold MeshMemory.get at h
  unfold MeshMemory.get_submesh
  rw [h]

theorem get_submesh_of_get_error (mm : MeshMemory) (R : Ref) (i : Nat)
    (h : mm.get R = .error .out_of_range) :
    mm.get_submesh R i = .error .out_of_range := by
  unfold MeshMemory.get at h
  unfold MeshMemory.get_submesh
  rw [h]

theorem get_submesh_congr (mm mm2 : MeshMemory) (R : Ref) (i : Nat)
    (h : mm.get R = mm2.get R) : mm.get_submesh R i = mm2.get_submesh R i := by
  unfold MeshMemory.get at h
  unfold MeshMemory.get_submesh
  rw [h]

theorem get_congr_find (mm mm2 : MeshMemory) (R : Ref)
    (h : entries_find mm.m_cache.entries R = entries_find mm2.m_cache.entries R) :
    mm.get R = mm2.get R := by
  unfold MeshMemory.get StdMap.map_at
  rw [h]

/-! ## The lookups of `MeshMemory` -/

/-- C1: `get(R)` succeeds exactly when `R` is a key of the store; when it
succeeds it returns the Cache stored under `R`, no other; when `R` is not a
key it fails with `std::out_of_range`. -/
theorem get_succeeds_iff_key (mm : MeshMemory) (R : Ref) :
    ((∃ c, mm.get R = .ok c) ↔ R ∈ mm.m_cache.keys) ∧
    (∀ c, mm.get R = .ok c ↔ (R, c) ∈ mm.m_cache.entries) ∧
    (mm.get R = .error .out_of_range ↔ R ∉ mm.m_cache.keys) := by
  refine ⟨?_, fun c => map_at_ok_iff_mem mm.m_cache R c,
    map_at_error_iff_not_key mm.m_cache R⟩
  constructor
  · rintro ⟨c, hc⟩
    have hm := (map_at_ok_iff_mem mm.m_cache R c).mp hc
    exact List.mem_map.mpr ⟨(R, c), hm, rfl⟩
  · intro hk
    rcases map_at_cases mm.m_cache R with ⟨v, hv, _, _⟩ | ⟨_, hn⟩
    · exact ⟨v, hv⟩
    · exact absurd hk hn

/-- C2: `get(R, i)` fails with `std::out_of_range` exactly when `R` is not
cached or `i` is not below the number of cachelets stored for `R`, and succeeds
otherwise; with 2 cachelets stored for `R`, `get(R, 5)` fails. -/
theorem get_submesh_fails_iff (mm : MeshMemory) (R : Ref) (i : Nat) :
    (mm.get_submesh R i = .error .out_of_range ↔
      (R ∉ mm.m_cache.keys ∨
        ∃ c, (R, c) ∈ mm.m_cache.entries ∧ c.m_cachelets.length ≤ i)) ∧
    ((∃ x, mm.get_submesh R i = .ok x) ↔
      ∃ c, (R, c) ∈ mm.m_cache.entries ∧ i < c.m_cachelets.length) ∧
    (∀ c, (R, c) ∈ mm.m_cache.entries → c.m_cachelets.length = 2 →
      mm.get_submesh R 5 = .error .out_of_range) := by
  have huniq : ∀ c d, (R, c) ∈ mm.m_cache.entries → (R, d) ∈ mm.m_cache.entries →
      c = d := by
    intro c d hc hd
    have h1 := (map_at_ok_iff_mem mm.m_cache R c).mpr hc
    have h2 := (map_at_ok_iff_mem mm.m_cache R d).mpr hd
    rw [h1] at h2
    cases h2; rfl
  have hval : ∀ (j : Nat) c, (R, c) ∈ mm.m_cache.entries →
      mm.get_submesh R j = vector_at c.m_cachelets j := fun j c hc =>
    get_submesh_of_get_ok mm R j c ((map_at_ok_iff_mem mm.m_cache R c).mpr hc)
  refine ⟨?_, ?_, ?_⟩
  · rcases map_at_cases mm.m_cache R with ⟨v, hv, hm, hk⟩ | ⟨he, hn⟩
    · rw [hval i v hm, vector_at_error_iff]
      constructor
      · intro hle; exact Or.inr ⟨v, hm, hle⟩
      · rintro (h | ⟨c, hc, hle⟩)
        · exact absurd hk h
        · rw [huniq v c hm hc]; exact hle
    · rw [get_submesh_of_get_error mm R i he]
      exact ⟨fun _ => Or.inl hn, fun _ => rfl⟩
  · rcases map_at_cases mm.m_cache R with ⟨v, hv, hm, hk⟩ | ⟨he, hn⟩
    · rw [hval i v hm]
      constructor
      · rintro ⟨x, hx⟩
        refine ⟨v, hm, ?_⟩
        by_contra hlt
        rw [(vector_at_error_iff v.m_cachelets i).mpr (not_lt.mp hlt)] at hx
        cases hx
      · rintro ⟨c, hc, hlt⟩
        rw [huniq v c hm hc]
        exact ⟨c.m_cachelets.get ⟨i, hlt⟩, by simp [vector_at, hlt]⟩
    · rw [get_submesh_of_get_error mm R i he]
      constructor
      · rintro ⟨x, hx⟩; cases hx
      · rintro ⟨c, hc, _⟩
        exact absurd (List.mem_map.mpr ⟨(R, c), hc, rfl⟩) hn
  · intro c hc hlen
    rw [hval 5 c hc, vector_at_error_iff, hlen]
    decide

/-- The store of the scenario of C2: one renderable, at address 7, cached with
two cachelets; there `get(7, 5)` fails. -/
theorem get_submesh_fails_iff_witness :
    ({ m_cache := StdMap.empty.insert 7 { m_cachelets := [{}, {}] } } :
      MeshMemory).get_submesh 7 5 = .error .out_of_range :=
  (get_submesh_fails_iff
    { m_cache := StdMap.empty.insert 7 { m_cachelets := [{}, {}] } } 7 5).2.2
    { m_cachelets := [{}, {}] } (by decide) rfl

/-- C8: the two overloads agree: `get(R, i)` succeeds exactly when `get(R)`
succeeds and `i` is below the length of its `m_cachelets`, and it then returns
the `i`-th element of that vector. -/
theorem get_overloads_agree (mm : MeshMemory) (R : Ref) (i : Nat) :
    ((∃ x, mm.get_submesh R i = .ok x) ↔
      ∃ c, mm.get R = .ok c ∧ i < c.m_cachelets.length) ∧
    (∀ c x, mm.get R = .ok c →
      (mm.get_submesh R i = .ok x ↔ c.m_cachelets[i]? = some x)) := by
  constructor
  · constructor
    · rintro ⟨x, hx⟩
      cases hg : mm.get R with
      | error e =>
        cases e
        rw [get_submesh_of_get_error mm R i hg] at hx
        cases hx
      | ok c =>
        refine ⟨c, rfl, ?_⟩
        rw [get_submesh_of_get_ok mm R i c hg] at hx
        by_contra hlt
        rw [(vector_at_error_iff c.m_cachelets i).mpr (not_lt.mp hlt)] at hx
        cases hx
    · rintro ⟨c, hc, hlt⟩
      rw [get_submesh_of_get_ok mm R i c hc]
      exact ⟨c.m_cachelets.get ⟨i, hlt⟩, by simp [vector_at, hlt]⟩
  · intro c x hc
    rw [get_submesh_of_get_ok mm R i c hc]
    exact vector_at_ok_iff _ _ _

/-- C9: a newly constructed `MeshMemory`, default-constructed or built from a
`Context`, holds no cache entry: `get(R)` and `get(R, i)` fail with
`std::out_of_range` for every `R` and `i`. -/
theorem new_mesh_memory_has_no_entries (context : Context) (R : Ref) (i : Nat) :
    MeshMemory.default_ctor.m_cache.entries = [] ∧
    (MeshMemory.from_context context).m_cache.entries = [] ∧
    MeshMemory.default_ctor.get R = .error .out_of_range ∧
    MeshMemory.default_ctor.get_submesh R i = .error .out_of_range ∧
    (MeshMemory.from_context context).get R = .error .out_of_range ∧
    (MeshMemory.from_context context).get_submesh R i = .error .out_of_range :=
  ⟨rfl, rfl, rfl, rfl, rfl, rfl⟩

/-- C5: the entries are keyed by the address of the renderable. For two
distinct addresses `R1` and `R2`, what `get(R1)` and `get(R1, i)` answer depends
on the entry under `R1` alone: two stores with the same entry under `R1` answer
alike; inserting, replacing or removing the entry under `R2` (whatever Cache
is put there, one equal to that of `R1` included) changes nothing; and a store
with the key `R1` and without the key `R2` answers `get(R1)` with a Cache and
`get(R2)` with `std::out_of_range`. -/
theorem get_keyed_by_identity (mm : MeshMemory) (R1 R2 : Ref) (c : Cache) (i : Nat)
    (hne : R1 ≠ R2) :
    (∀ other : MeshMemory,
      (∀ d, (R1, d) ∈ other.m_cache.entries ↔ (R1, d) ∈ mm.m_cache.entries) →
      other.get R1 = mm.get R1 ∧ other.get_submesh R1 i = mm.get_submesh R1 i) ∧
    ({ mm with m_cache := mm.m_cache.insert R2 c }.get R1 = mm.get R1 ∧
      { mm with m_cache := mm.m_cache.insert R2 c }.get_submesh R1 i
        = mm.get_submesh R1 i) ∧
    ({ mm with m_cache := mm.m_cache.insert_or_assign R2 c }.get R1 = mm.get R1 ∧
      { mm with m_cache := mm.m_cache.insert_or_assign R2 c }.get_submesh R1 i
        = mm.get_submesh R1 i) ∧
    ({ mm with m_cache := mm.m_cache.erase R2 }.get R1 = mm.get R1 ∧
      { mm with m_cache := mm.m_cache.erase R2 }.get_submesh R1 i
        = mm.get_submesh R1 i) ∧
    (R1 ∈ mm.m_cache.keys → R2 ∉ mm.m_cache.keys →
      (∃ c1, mm.get R1 = .ok c1) ∧ mm.get R2 = .error .out_of_range) := by
  have both : ∀ other : MeshMemory, other.get R1 = mm.get R1 →
      other.get R1 = mm.get R1 ∧ other.get_submesh R1 i = mm.get_submesh R1 i :=
    fun other h => ⟨h, get_submesh_congr other mm R1 i h⟩
  refine ⟨?_, ?_, ?_, ?_, ?_⟩
  · intro other hsame
    apply both
    rcases map_at_cases mm.m_cache R1 with ⟨v, hv, hm, _⟩ | ⟨he, hn⟩
    · show other.m_cache.map_at R1 = mm.m_cache.map_at R1
      rw [hv]
      exact (map_at_ok_iff_mem other.m_cache R1 v).mpr ((hsame v).mpr hm)
    · show other.m_cache.map_at R1 = mm.m_cache.map_at R1
      rw [he]
      rcases map_at_cases other.m_cache R1 with ⟨w, _, hw, _⟩ | ⟨he2, _⟩
      · exact absurd (List.mem_map.mpr ⟨(R1, w), (hsame w).mp hw, rfl⟩) hn
      · exact he2
  · exact both _ (get_congr_find _ mm R1 (entries_find_insert_ne mm.m_cache R2 R1 c hne))
  · exact both _ (get_congr_find _ mm R1 (entries_find_assign_ne mm.m_cache R2 R1 c hne))
  · exact both _ (get_congr_find _ mm R1 (entries_find_erase_ne mm.m_cache R2 R1 hne))
  · intro h1 h2
    refine ⟨?_, (map_at_error_iff_not_key mm.m_cache R2).mpr h2⟩
    rcases map_at_cases mm.m_cache R1 with ⟨v, hv, _, _⟩ | ⟨_, hn⟩
    · exact ⟨v, hv⟩
    · exact absurd h1 hn

/-- Two renderables at the addresses 3 and 7 with equal Caches: replacing the
entry under 7 leaves the answer for 3 as it was, and in a store holding 3 alone
`get(3)` succeeds and `get(7)` fails. -/
theorem get_keyed_by_identity_witness :
    (3 : Ref) ≠ 7 ∧
    ({ m_cache := (StdMap.empty.insert 3 { m_cachelets := [{}] }).insert_or_assign 7
        { m_cachelets := [{}] } } : MeshMemory).get 3 = .ok { m_cachelets := [{}] } ∧
    ({ m_cache := StdMap.empty.insert 3 { m_cachelets := [{}] } } : MeshMemory).get 7
      = .error .out_of_range :=
  ⟨by decide,
   ((get_keyed_by_identity { m_cache := StdMap.empty.insert 3 { m_cachelets := [{}] } }
      3 7 { m_cachelets := [{}] } 0 (by decide)).2.2.1.1).trans rfl,
   ((get_keyed_by_identity { m_cache := StdMap.empty.insert 3 { m_cachelets := [{}] } }
      3 7 { m_cachelets := [{}] } 0 (by decide)).2.2.2.2 (by decide) (by decide)).2⟩

/-! ## Caching -/

/-- C4: `cache_cuda` is idempotent: a second call for the same address, whatever
the renderable holds by then, leaves the store and the device memory as the
first call left them, so `get(R)` returns the same Cache with the same buffer
handles; for an address that is already a key it is a no-op. -/
theorem cache_cuda_idempotent (mm : MeshMemory) (dev : DeviceMemory) (R : Ref)
    (r r2 : Renderable) :
    (mm.cache_cuda dev R r).1.cache_cuda (mm.cache_cuda dev R r).2 R r2
      = mm.cache_cuda dev R r ∧
    ((mm.cache_cuda dev R r).1.cache_cuda (mm.cache_cuda dev R r).2 R r2).1.get R
      = (mm.cache_cuda dev R r).1.get R ∧
    (R ∈ mm.m_cache.keys → mm.cache_cuda dev R r = (mm, dev)) := by
  have hnoop : ∀ (m : MeshMemory) (d : DeviceMemory) (q : Renderable),
      m.m_cache.count R > 0 → m.cache_cuda d R q = (m, d) := by
    intro m d q hc
    unfold MeshMemory.cache_cuda
    rw [if_pos hc]
  have hkey : (mm.cache_cuda dev R r).1.m_cache.count R > 0 := by
    unfold MeshMemory.cache_cuda
    split_ifs with hc
    · exact hc
    · have hnone : entries_find mm.m_cache.entries R = none := by
        cases hf : entries_find mm.m_cache.entries R with
        | none => rfl
        | some v => exact absurd ((count_pos_iff mm.m_cache R).mpr ⟨v, hf⟩) hc
      exact (count_pos_iff _ R).mpr ⟨_, entries_find_insert_absent mm.m_cache R _ hnone⟩
  have htwice := hnoop (mm.cache_cuda dev R r).1 (mm.cache_cuda dev R r).2 r2 hkey
  refine ⟨htwice, by rw [htwice], ?_⟩
  intro hk
  apply hnoop
  rcases map_at_cases mm.m_cache R with ⟨v, hv, _, _⟩ | ⟨_, hn⟩
  · exact (count_pos_iff mm.m_cache R).mpr ⟨v, (map_at_ok_iff mm.m_cache R v).mp hv⟩
  · exact absurd hk hn

/-- A store that already holds the address 7: caching it again changes neither
the store nor the device memory. -/
theorem cache_cuda_idempotent_witness :
    ({ m_cache := StdMap.empty.insert 7 { m_cachelets := [⟨1, 2⟩] } } :
      MeshMemory).cache_cuda { next := 3 } 7 ⟨[⟨[1], []⟩, ⟨[2], []⟩]⟩
      = ({ m_cache := StdMap.empty.insert 7 { m_cachelets := [⟨1, 2⟩] } },
         { next := 3 }) :=
  (cache_cuda_idempotent
    { m_cache := StdMap.empty.insert 7 { m_cachelets := [⟨1, 2⟩] } } { next := 3 } 7
    ⟨[⟨[1], []⟩, ⟨[2], []⟩]⟩ ⟨[]⟩).2.2 (by decide)

/-! ## `Raster` -/

/-- C6: in the initial state of a `Raster`, before any call of
`environment_map`, the skybox is neither enabled nor initialized, and its
source path is empty. -/
theorem skybox_initially_disabled (ctx : Context) (area_light : Nat) :
    (Raster.default_ctor ctx area_light)._skybox.enabled = false ∧
    (Raster.default_ctor ctx area_light)._skybox.initialized = false ∧
    (Raster.default_ctor ctx area_light)._skybox.path = "" :=
  ⟨rfl, rfl, rfl⟩

/-- C7: a call of `render` without an area argument passes the sentinel
`RenderArea` whose two coordinate pairs are both `(-1, -1)`, the same one
whatever the other arguments are. -/
theorem render_default_area_is_sentinel (cmd framebuffer ecs cmd2 framebuffer2 ecs2 : Nat) :
    (Raster.render_args cmd framebuffer ecs none).area = RenderArea.mk (-1, -1) (-1, -1) ∧
    (Raster.render_args cmd framebuffer ecs none).area.min = (-1, -1) ∧
    (Raster.render_args cmd framebuffer ecs none).area.max = (-1, -1) ∧
    (Raster.render_args cmd framebuffer ecs none).area
      = (Raster.render_args cmd2 framebuffer2 ecs2 none).area :=
  ⟨rfl, rfl, rfl, rfl⟩

end layers

end kobra
